import Mathlib

/-!
Verification of the Dreamina token manager core.

Shallow embedding of the two source files:
* the proxy router (round-robin account picker, header sanitization,
  target-URL construction, transport-failure classification), and
* the `DreaminaAccount` manager (`autoRefreshSessionIds`, `addAccount`)
  together with the account routes (`setAccounts` batch creation,
  `refreshAllAccounts` / `forceRefreshAllAccounts`).

JS strings are modelled as `String`, viewed through `String.data` where
character-level operations are needed; JS objects used as header maps are
modelled as functions `String → Option String`; the collaborators whose
sources live elsewhere (`DreaminaTokenManager.refreshSessionId`,
`login`, `isSessionIdExpiringSoon`, `DataPersistence.saveAccount`) are
universally quantified oracles, with persistence calls recorded in an
event log so that frame conditions can be stated.
-/

/-- An account record as held in `this.dreaminaAccounts`.  JS truthiness of
`account.sessionid` (absent and the empty string are both falsy) is modelled
by `sessionid = ""`. -/
structure Account where
  email : String
  password : String
  sessionid : String
  sessionid_expires : Option Nat
  token : Option String
  expires : Option Nat
deriving DecidableEq

/-- Model of `pickAccount` (router lines 12-18): filter to accounts whose `sessionid`
is truthy, advance the module-level counter `rrIndex` modulo the filtered
length, and index into the filtered list.  When no account is available the
counter is returned untouched and `null` is produced. -/
def pickAccount (accounts : List Account) (rrIndex : Nat) : Option Account × Nat :=
  let available := accounts.filter (fun a => decide (a.sessionid ≠ ""))
  if available.length = 0 then (none, rrIndex)
  else
    let i := (rrIndex + 1) % available.length
    (available[i]?, i)

/-- Run of `n` consecutive `pickAccount` calls threading the persistent counter,
with no store mutation in between. -/
def pickRun (accounts : List Account) : Nat → Nat → List (Option Account) × Nat
  | r, 0 => ([], r)
  | r, n + 1 =>
    let step := pickAccount accounts r
    let rest := pickRun accounts step.2 n
    (step.1 :: rest.1, rest.2)

/-- JS `s.startsWith(p)` on the character-list view of strings. -/
def strStartsWith (s p : String) : Bool := p.data.isPrefixOf s.data

/-- JS `s.endsWith(p)` for a one-character pattern, on the character-list view. -/
def strEndsWith (s p : String) : Bool := p.data.isSuffixOf s.data

/-- Router line 78, `originalPath.replace(/^\/api/, '')`: the anchored regex
removes a single leading occurrence of `/api` when present (4 characters),
and leaves the path alone otherwise. -/
def pathWithoutApi (originalPath : String) : String :=
  if strStartsWith originalPath "/api" then String.mk (originalPath.data.drop 4)
  else originalPath

/-- Router line 79, `base.replace(/\/$/, '')`: removes a single trailing
slash when present. -/
def baseWithoutSlash (base : String) : String :=
  if strEndsWith base "/" then String.mk (base.data.dropLast) else base

/-- Router line 79: `targetUrl = base.replace(/\/$/, '') + pathWithoutApi`. -/
def targetUrl (base originalPath : String) : String :=
  baseWithoutSlash base ++ pathWithoutApi originalPath

/-- Router line 74: `account.sessionid.startsWith('us-') ? account.sessionid
: 'us-' + account.sessionid`. -/
def normalizeSessionId (sessionid : String) : String :=
  if strStartsWith sessionid "us-" then sessionid else "us-" ++ sessionid

/-- Occurrence of `pat` as a contiguous substring of a character list
(JS `String.prototype.includes`). -/
def substrOccurs (pat : List Char) : List Char → Bool
  | [] => pat.isPrefixOf []
  | c :: rest => pat.isPrefixOf (c :: rest) || substrOccurs pat rest

/-- JS `s.includes(pat)`. -/
def includesSubstr (s pat : String) : Bool := substrOccurs pat.data s.data

/-- JS `s.toLowerCase()` on the character-list view. -/
def strToLower (s : String) : String := String.mk (s.data.map Char.toLower)

/-- Router line 186 condition, second disjunct:
`e.message && e.message.toLowerCase().includes('timeout')`. -/
def timeoutMessage (message : String) : Bool :=
  decide (message ≠ "") && includesSubstr (strToLower message) "timeout"

/-- Outcome of the upstream `axios` call.  Because the request is issued
with `validateStatus: () => true` (line 103), an HTTP response of any
status resolves normally; only transport-level failures reject with an
error carrying `code` and `message`. -/
inductive UpstreamResult where
  | resp (status : Nat)
  | err (code : String) (message : String)
deriving DecidableEq

/-- What the catch-all handler sends back for one upstream outcome. -/
inductive ProxyOutcome where
  | relayed (status : Nat)
  | gatewayTimeout (detail : String)
  | badGateway (detail : String)
deriving DecidableEq

/-- Router lines 182-190: a resolved response is relayed with its own
status (line 182); in the catch block, `ECONNABORTED` or a message
containing `timeout` yields 504, anything else 502, each carrying
`e.message` as detail.  The request method is in scope in the handler but
never consulted by this classification. -/
def classifyUpstream (method : String) (result : UpstreamResult) : ProxyOutcome :=
  match result with
  | .resp status => .relayed status
  | .err code message =>
    if code == "ECONNABORTED" || timeoutMessage message then .gatewayTimeout message
    else .badGateway message

/-- A JS plain object used as a header map. -/
abbrev HeadersMap := String → Option String

/-- JS truthiness of a header value: present and non-empty. -/
def jsTruthy (v : Option String) : Bool :=
  match v with
  | none => false
  | some s => decide (s ≠ "")

/-- JS `delete obj[k]`. -/
def deleteKey (h : HeadersMap) (k : String) : HeadersMap :=
  fun q => if q = k then none else h q

/-- Router lines 85/87: `if (incomingHeaders[h]) delete incomingHeaders[h]`. -/
def deleteIfTruthy (h : HeadersMap) (k : String) : HeadersMap :=
  if jsTruthy (h k) then deleteKey h k else h

/-- Router line 86: `h.charAt(0).toUpperCase() + h.slice(1)`. -/
def capFirst (s : String) : String :=
  match s.data with
  | [] => ""
  | c :: cs => String.mk (Char.toUpper c :: cs)

/-- Router line 84: the five header names swept by the cleanup loop. -/
def sanitizeNames : List String :=
  ["host", "connection", "content-length", "transfer-encoding", "expect"]

/-- One iteration of the cleanup loop body (lines 85-87): delete the
lowercase spelling, then the spelling with the first letter capitalized. -/
def stripPair (h : HeadersMap) (n : String) : HeadersMap :=
  deleteIfTruthy (deleteIfTruthy h n) (capFirst n)

/-- Router lines 84-88: the full cleanup loop over `sanitizeNames`. -/
def sanitizeHeaders (h : HeadersMap) : HeadersMap := sanitizeNames.foldl stripPair h

/-- Router lines 89-92: spread the cleaned headers and set the (lowercase)
`authorization` key to the Bearer-prefixed normalized session id. -/
def outboundHeaders (incoming : HeadersMap) (sessionId : String) : HeadersMap :=
  fun k =>
    if k = "authorization" then some ("Bearer " ++ sessionId)
    else sanitizeHeaders incoming k

/-- The ten header-name spellings the cleanup loop can actually delete. -/
def strippedHeaderNames : List String :=
  ["host", "Host", "connection", "Connection", "content-length", "Content-length",
   "transfer-encoding", "Transfer-encoding", "expect", "Expect"]

/-- Outcome of one `tokenManager.refreshSessionId(account)` call as seen by
callers: a resolved account object, a resolved `null`, or a rejection
(thrown error). -/
inductive RefreshResult where
  | ok (updated : Account)
  | failed
  | threw
deriving DecidableEq

/-- Whether the refresh call resolved with an account object. -/
def RefreshResult.isOk : RefreshResult → Bool
  | .ok _ => true
  | .failed => false
  | .threw => false

/-- Model of `this.dreaminaAccounts.findIndex(acc => acc.email === email)` followed
by `this.dreaminaAccounts[index] = updated` when the index is found:
replace the first record whose email matches, leave the list unchanged
otherwise. -/
def replaceByEmail : List Account → String → Account → List Account
  | [], _, _ => []
  | a :: rest, email, updated =>
    if a.email = email then updated :: rest
    else a :: replaceByEmail rest email updated

/-- Model of `list.find(acc => acc.email === email)`. -/
def findByEmail (accounts : List Account) (email : String) : Option Account :=
  accounts.find? (fun a => decide (a.email = email))

/-- Result of a refresh scan: the counters, the store after the scan, the
emails passed to `dataPersistence.saveAccount`, and the emails for which
`tokenManager.refreshSessionId` was invoked. -/
structure ScanResult where
  successCount : Nat
  failedCount : Nat
  accounts : List Account
  saved : List String
  attempted : List String
deriving DecidableEq

/-- The `for (const account of needsRefresh)` loop of
`autoRefreshSessionIds` (manager lines 288-317): on a resolved account,
replace the store record matched by email, persist it, and count a
success; on `null` or a thrown error, count a failure and continue with
the next candidate.  The `await this._delay(2000)` between iterations has
no observable effect on the state modelled here. -/
def runScan (refresh : Account → RefreshResult) :
    List Account → List Account → Nat → Nat → List String → List String → ScanResult
  | [], acc, s, f, saved, attempted => ⟨s, f, acc, saved, attempted⟩
  | a :: rest, acc, s, f, saved, attempted =>
    match refresh a with
    | .ok updated =>
      runScan refresh rest (replaceByEmail acc a.email updated) (s + 1) f
        (saved ++ [a.email]) (attempted ++ [a.email])
    | .failed => runScan refresh rest acc s (f + 1) saved (attempted ++ [a.email])
    | .threw => runScan refresh rest acc s (f + 1) saved (attempted ++ [a.email])

/-- Model of `DreaminaAccount.autoRefreshSessionIds(thresholdHours)` (manager lines
266-321).  `isSessionIdExpiringSoon` and `refreshSessionId` live in the
token manager, whose source is elsewhere; they are taken as oracle
parameters.  Returns the method's return value (`successCount`, or `0` on
the two early returns) paired with the resulting scan state. -/
def autoRefreshSessionIds (isInitialized : Bool)
    (isSessionIdExpiringSoon : Option Nat → Nat → Bool)
    (refresh : Account → RefreshResult)
    (accounts : List Account) (thresholdHours : Nat) : Nat × ScanResult :=
  if !isInitialized then (0, ⟨0, 0, accounts, [], []⟩)
  else
    let needsRefresh :=
      accounts.filter (fun a => isSessionIdExpiringSoon a.sessionid_expires thresholdHours)
    if needsRefresh.length = 0 then (0, ⟨0, 0, accounts, [], []⟩)
    else
      let r := runScan refresh needsRefresh accounts 0 0 [] []
      (r.successCount, r)

/-- Accounts-route handler `POST /refreshAllAccounts` (lines 165-174):
delegates to `autoRefreshSessionIds` with the caller-supplied threshold. -/
def refreshAllAccountsHandler (isInitialized : Bool)
    (isSessionIdExpiringSoon : Option Nat → Nat → Bool)
    (refresh : Account → RefreshResult)
    (accounts : List Account) (thresholdHours : Nat) : Nat × ScanResult :=
  autoRefreshSessionIds isInitialized isSessionIdExpiringSoon refresh accounts thresholdHours

/-- Accounts-route handler `POST /forceRefreshAllAccounts` (lines 176-184):
delegates to `autoRefreshSessionIds` with threshold 8760. -/
def forceRefreshAllAccountsHandler (isInitialized : Bool)
    (isSessionIdExpiringSoon : Option Nat → Nat → Bool)
    (refresh : Account → RefreshResult)
    (accounts : List Account) : Nat × ScanResult :=
  autoRefreshSessionIds isInitialized isSessionIdExpiringSoon refresh accounts 8760

/-- Outcome of one `tokenManager.login(email, password)` call: a resolved
`{sessionid, expires}` object, a resolved falsy value, or a rejection. -/
inductive LoginResult where
  | ok (sessionid : String) (expires : Option Nat)
  | failed
  | threw
deriving DecidableEq

/-- Result of `DreaminaAccount.addAccount`: the returned boolean, the store
afterwards, the emails for which `login` was invoked, and the emails passed
to `saveAccount`. -/
structure AddResult where
  success : Bool
  accounts : List Account
  loginAttempts : List String
  saved : List String
deriving DecidableEq

/-- Model of `DreaminaAccount.addAccount(email, password)` (manager lines 323-354):
reject a duplicate email before doing anything else; otherwise log in,
and on success push the new record and persist it.  A thrown login is
caught and reported as `false` with the store untouched. -/
def addAccount (login : String → String → LoginResult)
    (accounts : List Account) (email password : String) : AddResult :=
  match accounts.find? (fun a => decide (a.email = email)) with
  | some _ => ⟨false, accounts, [], []⟩
  | none =>
    match login email password with
    | .threw => ⟨false, accounts, [email], []⟩
    | .failed => ⟨false, accounts, [email], []⟩
    | .ok sessionid expires =>
      let newAccount : Account := ⟨email, password, sessionid, expires, none, none⟩
      ⟨true, accounts ++ [newAccount], [email], [email]⟩

/-- Split a character list at every occurrence of a separator character
(JS `String.prototype.split` with a one-character separator). -/
def splitChar (sep : Char) : List Char → List (List Char)
  | [] => [[]]
  | c :: rest =>
    let r := splitChar sep rest
    if c = sep then [] :: r
    else
      match r with
      | [] => [[c]]
      | piece :: pieces => (c :: piece) :: pieces

/-- JS `s.trim()`: drop whitespace from both ends (the inputs here are
ASCII, where JS and Lean agree on what whitespace is). -/
def trimChars (l : List Char) : List Char :=
  (((l.dropWhile Char.isWhitespace).reverse).dropWhile Char.isWhitespace).reverse

/-- Model of `line.split(':')` destructured as `[email, password]` followed by
`if (!email || !password) continue` (routes lines 109-110). -/
def parseAccountLine (line : String) : Option (String × String) :=
  match splitChar ':' line.data with
  | [] => none
  | [_] => none
  | email :: password :: _ =>
    if email.isEmpty || password.isEmpty then none
    else some (String.mk email, String.mk password)

/-- Routes lines 96-99: `accounts.split(/\r?\n/).map(s => s.trim())
.filter(s => s !== '')`.  Splitting on a newline and trimming afterwards
removes any `\r` the regex would have consumed. -/
def splitAccountLines (input : String) : List String :=
  ((splitChar (Char.ofNat 10) input.data).map (fun l => String.mk (trimChars l))).filter
    (fun l => decide (l ≠ ""))

/-- What the `account:batchAdd:done` completion event carries (routes lines
127-132), plus the resulting store. -/
structure BatchResult where
  total : Nat
  successCount : Nat
  failed : List (String × String)
  accounts : List Account
deriving DecidableEq

/-- The `for (const line of list)` loop of the `POST /setAccounts` handler
(routes lines 104-125): skip lines without both an email and a password;
report `exists` for a duplicate; otherwise call `addAccount` and report
success or `failed`. -/
def runBatch (login : String → String → LoginResult) :
    List String → List Account → Nat → List (String × String) →
    Nat × List (String × String) × List Account
  | [], accounts, s, failed => (s, failed, accounts)
  | line :: rest, accounts, s, failed =>
    match parseAccountLine line with
    | none => runBatch login rest accounts s failed
    | some (email, password) =>
      match accounts.find? (fun a => decide (a.email = email)) with
      | some _ => runBatch login rest accounts s (failed ++ [(email, "exists")])
      | none =>
        let r := addAccount login accounts email password
        if r.success then runBatch login rest r.accounts (s + 1) failed
        else runBatch login rest r.accounts s (failed ++ [(email, "failed")])

/-- Handler `POST /setAccounts` (routes lines 89-138): `none` models the early 400
response for a falsy `accounts` body; otherwise the completion event data
and the resulting store. -/
def setAccountsHandler (login : String → String → LoginResult)
    (accounts : List Account) (input : String) : Option BatchResult :=
  if input = "" then none
  else
    let list := splitAccountLines input
    let r := runBatch login list accounts 0 []
    some ⟨list.length, r.1, r.2.1, r.2.2⟩

/-- Fixture: a token-bearing account. -/
def accA : Account := ⟨"a@x", "pa", "sid-a", some 100, none, none⟩

/-- Fixture: a second token-bearing account. -/
def accB : Account := ⟨"b@x", "pb", "sid-b", some 200, none, none⟩

/-- Fixture: an account without a session token. -/
def accC : Account := ⟨"c@x", "pc", "", none, none, none⟩

/-- Fixture store with two token-bearing accounts. -/
def exStore : List Account := [accA, accB]

/-- Fixture refresh oracle: resolves with the record unchanged for accB's
email and resolves null for everyone else. -/
def exRefresh : Account → RefreshResult :=
  fun a => if a.email = "b@x" then RefreshResult.ok a else RefreshResult.failed

/-- Fixture header map holding a single fully-uppercase HOST header. -/
def exHeaders : HeadersMap := fun k => if k = "HOST" then some "x" else none

theorem strStartsWith_append (p s : String) : strStartsWith (p ++ s) p = true := by
  simp [strStartsWith, List.isPrefixOf_iff_prefix]

theorem data_drop_append (p s : String) (n : Nat) (h : p.data.length = n) :
    String.mk ((p ++ s).data.drop n) = s := by
  rcases s with ⟨d⟩
  rw [String.data_append, List.drop_left' h]

/-- C10: with `isInitialized` false, `autoRefreshSessionIds` — and the two
route handlers that delegate to it — return 0 and leave everything
untouched: the store is unchanged, no refresh is attempted and no
persistence call is made. -/
theorem autoRefresh_uninitialized_noop (isSessionIdExpiringSoon : Option Nat → Nat → Bool)
    (refresh : Account → RefreshResult) (accounts : List Account) (thresholdHours : Nat) :
    autoRefreshSessionIds false isSessionIdExpiringSoon refresh accounts thresholdHours
      = (0, ⟨0, 0, accounts, [], []⟩)
    ∧ refreshAllAccountsHandler false isSessionIdExpiringSoon refresh accounts thresholdHours
      = (0, ⟨0, 0, accounts, [], []⟩)
    ∧ forceRefreshAllAccountsHandler false isSessionIdExpiringSoon refresh accounts
      = (0, ⟨0, 0, accounts, [], []⟩) :=
  ⟨rfl, rfl, rfl⟩

/-- C3: the dispatcher's outcome for an upstream result does not depend on
the request method; a resolved HTTP response of any status is relayed,
never classified as a dispatcher error; a rejected call is classified 504
exactly when its code is ECONNABORTED or its (non-empty) message contains
`timeout` case-insensitively, and 502 otherwise. -/
theorem classifyUpstream_transport (m m' : String) (r : UpstreamResult)
    (status : Nat) (code message : String) :
    classifyUpstream m r = classifyUpstream m' r
    ∧ classifyUpstream m (.resp status) = .relayed status
    ∧ classifyUpstream m (.err code message)
        = (if code = "ECONNABORTED"
              ∨ (message ≠ "" ∧ includesSubstr (strToLower message) "timeout" = true)
           then ProxyOutcome.gatewayTimeout message
           else ProxyOutcome.badGateway message) := by
  refine ⟨by cases r <;> rfl, rfl, ?_⟩
  have hiff : (code == "ECONNABORTED" || timeoutMessage message) = true
      ↔ (code = "ECONNABORTED"
          ∨ (message ≠ "" ∧ includesSubstr (strToLower message) "timeout" = true)) := by
    simp [timeoutMessage]
  show (if (code == "ECONNABORTED" || timeoutMessage message) = true
        then ProxyOutcome.gatewayTimeout message else ProxyOutcome.badGateway message) = _
  exact if_congr hiff rfl rfl

/-- C5: the dispatcher removes exactly one leading `/api` from the inbound
path (stripping whenever the prefix is present, never twice), leaves
prefix-free paths alone, and appends the remainder to the base address
with a single trailing slash removed; in particular `/api/foo/bar` on base
`https://up.example` yields `https://up.example/foo/bar`. -/
theorem targetUrl_strips_api_once :
    (∀ rest : String, pathWithoutApi ("/api" ++ rest) = rest)
    ∧ (∀ p : String, strStartsWith p "/api" = false → pathWithoutApi p = p)
    ∧ pathWithoutApi "/api/api/foo" = "/api/foo"
    ∧ baseWithoutSlash "https://up.example/" = "https://up.example"
    ∧ targetUrl "https://up.example" "/api/foo/bar" = "https://up.example/foo/bar" := by
  refine ⟨?_, ?_, by decide, by decide, by decide⟩
  · intro rest
    rw [pathWithoutApi, strStartsWith_append]
    simp only [if_true]
    exact data_drop_append "/api" rest 4 (by decide)
  · intro p h
    rw [pathWithoutApi, h]
    simp

/-- C5 witness: the no-prefix branch at a concrete path. -/
theorem targetUrl_strips_api_once_witness : pathWithoutApi "/foo" = "/foo" :=
  targetUrl_strips_api_once.2.1 "/foo" (by decide)

/-- C8 counterexample: a session id that already carries a doubled prefix
is returned unchanged, so the normalized token contains the scheme prefix
more than once — the claim that the prefix is present exactly once fails. -/
theorem normalizeSessionId_not_exactly_once :
    normalizeSessionId "us-us-abc" = "us-us-abc"
    ∧ strStartsWith (normalizeSessionId "us-us-abc") "us-us-" = true := by
  constructor <;> decide

/-- C8 amended: the normalized token always begins with the `us-` prefix,
normalization is idempotent, and a token already starting with `us-` is
returned unchanged (so the prefix is never prepended a second time); the
code does not, however, deduplicate a prefix already repeated inside the
input. -/
theorem normalizeSessionId_canonical (sessionid : String) :
    strStartsWith (normalizeSessionId sessionid) "us-" = true
    ∧ normalizeSessionId (normalizeSessionId sessionid) = normalizeSessionId sessionid
    ∧ (strStartsWith sessionid "us-" = true → normalizeSessionId sessionid = sessionid) := by
  by_cases h : strStartsWith sessionid "us-" = true
  · exact ⟨by simp [normalizeSessionId, h], by simp [normalizeSessionId, h],
      fun _ => by simp [normalizeSessionId, h]⟩
  · have h2 := strStartsWith_append "us-" sessionid
    refine ⟨?_, ?_, fun hc => absurd hc h⟩
    · simp only [normalizeSessionId, h, if_false]
      simpa [h] using h2
    · simp [normalizeSessionId, h, h2]

/-- C8 witness: normalizing an already-prefixed token returns it unchanged. -/
theorem normalizeSessionId_canonical_witness :
    normalizeSessionId "us-abc" = "us-abc" :=
  (normalizeSessionId_canonical "us-abc").2.2 (by decide)

/-- C6: adding an account whose email is already in the store returns
false and leaves everything untouched: the store is the same list (the
existing record is not mutated and nothing is appended), and neither
`login` nor `saveAccount` is invoked. -/
theorem addAccount_duplicate_rejected (login : String → String → LoginResult)
    (accounts : List Account) (email password : String)
    (h : ∃ a ∈ accounts, a.email = email) :
    addAccount login accounts email password = ⟨false, accounts, [], []⟩ := by
  have hs : (accounts.find? (fun a => decide (a.email = email))).isSome := by
    rw [List.find?_isSome]
    obtain ⟨a, ha, he⟩ := h
    exact ⟨a, ha, by simp [he]⟩
  obtain ⟨a, ha⟩ := Option.isSome_iff_exists.mp hs
  simp [addAccount, ha]

/-- C6 witness: duplicate add at a concrete store. -/
theorem addAccount_duplicate_rejected_witness :
    addAccount (fun _ _ => LoginResult.failed) exStore "a@x" "pw"
      = ⟨false, exStore, [], []⟩ :=
  addAccount_duplicate_rejected (fun _ _ => LoginResult.failed) exStore "a@x" "pw"
    ⟨accA, by decide, by decide⟩

theorem pickAccount_of_ne_nil (accounts : List Account) (r : Nat)
    (h : ¬(accounts.filter (fun a => decide (a.sessionid ≠ ""))).length = 0) :
    pickAccount accounts r
      = ((accounts.filter (fun a => decide (a.sessionid ≠ "")))[(r + 1)
            % (accounts.filter (fun a => decide (a.sessionid ≠ ""))).length]?,
         (r + 1) % (accounts.filter (fun a => decide (a.sessionid ≠ ""))).length) := by
  simp only [pickAccount]
  rw [if_neg h]

theorem pickRun_formula (accounts : List Account) (n : Nat) :
    ∀ r : Nat, ¬(accounts.filter (fun a => decide (a.sessionid ≠ ""))).length = 0 →
    (pickRun accounts r n).1
      = (List.range n).map
          (fun k => (accounts.filter (fun a => decide (a.sessionid ≠ "")))[(r + 1 + k)
              % (accounts.filter (fun a => decide (a.sessionid ≠ ""))).length]?) := by
  induction n with
  | zero => intro r _; simp [pickRun]
  | succ n ih =>
    intro r h
    have harg : ∀ k : Nat,
        ((r + 1) % (accounts.filter (fun a => decide (a.sessionid ≠ ""))).length + 1 + k)
            % (accounts.filter (fun a => decide (a.sessionid ≠ ""))).length
          = (r + 1 + (k + 1)) % (accounts.filter (fun a => decide (a.sessionid ≠ ""))).length := by
      intro k
      rw [Nat.add_assoc, Nat.mod_add_mod]
      congr 1
      omega
    simp only [pickRun, pickAccount_of_ne_nil accounts r h]
    rw [ih ((r + 1) % (accounts.filter (fun a => decide (a.sessionid ≠ ""))).length) h]
    rw [List.range_succ_eq_map, List.map_cons, List.map_map]
    rw [Nat.add_zero]
    congr 1
    apply List.map_congr_left
    intro k _
    simp only [Function.comp_apply, Nat.succ_eq_add_one]
    rw [harg k]

/-- C2: on a fixed store whose token-bearing accounts form a nonempty
filtered list of length N, N consecutive `pickAccount` calls starting from
any counter value return exactly the rotation of the filtered list by
`(r0 + 1) mod N` — a fixed cyclic order — and that rotation is a
permutation of the filtered list, so each token-bearing account is
returned exactly once. -/
theorem pickAccount_roundrobin (accounts : List Account) (r0 : Nat)
    (h : accounts.filter (fun a => decide (a.sessionid ≠ "")) ≠ []) :
    (pickRun accounts r0 (accounts.filter (fun a => decide (a.sessionid ≠ ""))).length).1
      = ((accounts.filter (fun a => decide (a.sessionid ≠ ""))).rotate
          ((r0 + 1) % (accounts.filter (fun a => decide (a.sessionid ≠ ""))).length)).map some
    ∧ ((accounts.filter (fun a => decide (a.sessionid ≠ ""))).rotate
        ((r0 + 1) % (accounts.filter (fun a => decide (a.sessionid ≠ ""))).length)).Perm
        (accounts.filter (fun a => decide (a.sessionid ≠ ""))) := by
  refine ⟨?_, List.rotate_perm _ _⟩
  have hlen : ¬(accounts.filter (fun a => decide (a.sessionid ≠ ""))).length = 0 :=
    fun hc => h (List.length_eq_zero.mp hc)
  rw [pickRun_formula accounts _ r0 hlen]
  apply List.ext_getElem?
  intro i
  by_cases hi : i < (accounts.filter (fun a => decide (a.sessionid ≠ ""))).length
  · rw [List.getElem?_map, List.getElem?_range hi, List.getElem?_map,
      List.getElem?_rotate (by simpa using hi)]
    simp only [Option.map_some']
    have hidx : (i + (r0 + 1) % (accounts.filter (fun a => decide (a.sessionid ≠ ""))).length)
          % (accounts.filter (fun a => decide (a.sessionid ≠ ""))).length
        = (r0 + 1 + i) % (accounts.filter (fun a => decide (a.sessionid ≠ ""))).length := by
      rw [Nat.add_mod_mod]
      congr 1
      omega
    rw [hidx]
    have hlt : (r0 + 1 + i) % (accounts.filter (fun a => decide (a.sessionid ≠ ""))).length
        < (accounts.filter (fun a => decide (a.sessionid ≠ ""))).length :=
      Nat.mod_lt _ (Nat.pos_of_ne_zero hlen)
    rw [List.getElem?_eq_getElem hlt]
    rfl
  · rw [List.getElem?_eq_none, List.getElem?_eq_none]
    · simpa using Nat.le_of_not_lt hi
    · simpa using Nat.le_of_not_lt hi

/-- C2 witness: two token-bearing accounts, counter starting at 5. -/
theorem pickAccount_roundrobin_witness :
    (pickRun exStore 5 (exStore.filter (fun a => decide (a.sessionid ≠ ""))).length).1
      = ((exStore.filter (fun a => decide (a.sessionid ≠ ""))).rotate
          ((5 + 1) % (exStore.filter (fun a => decide (a.sessionid ≠ ""))).length)).map some :=
  (pickAccount_roundrobin exStore 5 (by decide)).1

/-- C7: `pickAccount` returns null exactly when no stored account holds a
non-empty session id, and any account it does return holds a non-empty
session id. -/
theorem pickAccount_none_iff_no_token (accounts : List Account) (rrIndex : Nat) :
    ((pickAccount accounts rrIndex).1 = none
      ↔ accounts.filter (fun a => decide (a.sessionid ≠ "")) = [])
    ∧ ∀ a : Account, (pickAccount accounts rrIndex).1 = some a → a.sessionid ≠ "" := by
  by_cases h : (accounts.filter (fun a => decide (a.sessionid ≠ ""))).length = 0
  · have hnil := List.length_eq_zero.mp h
    constructor
    · simp only [pickAccount]
      rw [if_pos h]
      simpa using hnil
    · intro a ha
      simp only [pickAccount] at ha
      rw [if_pos h] at ha
      cases ha
  · have hlt : (rrIndex + 1) % (accounts.filter (fun a => decide (a.sessionid ≠ ""))).length
        < (accounts.filter (fun a => decide (a.sessionid ≠ ""))).length :=
      Nat.mod_lt _ (Nat.pos_of_ne_zero h)
    have hpick : (pickAccount accounts rrIndex).1
        = some ((accounts.filter (fun a => decide (a.sessionid ≠ ""))).get
            ⟨(rrIndex + 1) % (accounts.filter (fun a => decide (a.sessionid ≠ ""))).length, hlt⟩) := by
      rw [pickAccount_of_ne_nil accounts rrIndex h]
      simp only [List.getElem?_eq_getElem hlt]
      rfl
    constructor
    · rw [hpick]
      constructor
      · intro hc; cases hc
      · intro hc; exact absurd (by rw [hc]; rfl) h
    · intro a ha
      rw [hpick] at ha
      have hmem : a ∈ accounts.filter (fun a => decide (a.sessionid ≠ "")) := by
        cases ha
        exact List.get_mem _ _ _
      have := (List.mem_filter.mp hmem).2
      exact of_decide_eq_true this

/-- C7 witness: the account returned on the concrete store carries a token. -/
theorem pickAccount_none_iff_no_token_witness : accB.sessionid ≠ "" :=
  (pickAccount_none_iff_no_token exStore 0).2 accB (by decide)

theorem deleteIfTruthy_apply_ne (h : HeadersMap) (n k : String) (hne : k ≠ n) :
    deleteIfTruthy h n k = h k := by
  unfold deleteIfTruthy
  by_cases ht : jsTruthy (h n) = true
  · rw [if_pos ht]
    simp [deleteKey, hne]
  · rw [if_neg ht]

theorem deleteIfTruthy_apply_self (h : HeadersMap) (n : String) :
    deleteIfTruthy h n n = if jsTruthy (h n) = true then none else h n := by
  unfold deleteIfTruthy
  by_cases ht : jsTruthy (h n) = true
  · rw [if_pos ht, if_pos ht]
    simp [deleteKey]
  · rw [if_neg ht, if_neg ht]

theorem jsTruthy_none : jsTruthy none = false := rfl

theorem stripPair_apply (h : HeadersMap) (n k : String) :
    stripPair h n k
      = if (k = n ∨ k = capFirst n) ∧ jsTruthy (h k) = true then none else h k := by
  unfold stripPair
  by_cases hkn : k = n
  · subst hkn
    by_cases hkc : k = capFirst k
    · rw [← hkc, deleteIfTruthy_apply_self, deleteIfTruthy_apply_self]
      by_cases ht : jsTruthy (h k) = true
      · simp [ht, jsTruthy_none]
      · simp [ht]
    · rw [deleteIfTruthy_apply_ne _ _ _ hkc, deleteIfTruthy_apply_self]
      by_cases ht : jsTruthy (h k) = true
      · simp [ht]
      · simp [ht]
  · by_cases hkc : k = capFirst n
    · rw [← hkc, deleteIfTruthy_apply_self, deleteIfTruthy_apply_ne _ _ _ hkn]
      by_cases ht : jsTruthy (h k) = true
      · simp [ht, hkn]
      · simp [ht]
    · rw [deleteIfTruthy_apply_ne _ _ _ hkc, deleteIfTruthy_apply_ne _ _ _ hkn]
      simp [hkn, hkc]

theorem foldl_stripPair_apply (ns : List String) (h : HeadersMap) (k : String) :
    ns.foldl stripPair h k
      = if (ns.any (fun n => k == n || k == capFirst n) && jsTruthy (h k)) = true
        then none else h k := by
  induction ns generalizing h with
  | nil => simp
  | cons n rest ih =>
    rw [List.foldl_cons, ih (stripPair h n), stripPair_apply]
    by_cases hd : (k = n ∨ k = capFirst n) ∧ jsTruthy (h k) = true
    · rw [if_pos hd]
      have h1 : (k == n || k == capFirst n) = true := by
        rcases hd.1 with h2 | h2 <;> simp [h2]
      simp [h1, hd.2, jsTruthy_none]
    · rw [if_neg hd]
      by_cases ht : jsTruthy (h k) = true
      · have h1 : (k == n || k == capFirst n) = false := by
          rcases not_and_or.mp hd with h2 | h2
        
          · rcases not_or.mp h2 with ⟨h3, h4⟩
            simp [h3, h4]
          · exact absurd ht h2
        simp [h1, ht]
      · have ht' : jsTruthy (h k) = false := by
          simpa using ht
        simp [ht']

theorem sanitizeHeaders_apply (h : HeadersMap) (k : String) :
    sanitizeHeaders h k
      = if (sanitizeNames.any (fun n => k == n || k == capFirst n) && jsTruthy (h k)) = true
        then none else h k :=
  foldl_stripPair_apply sanitizeNames h k

theorem capFirst_host : capFirst "host" = "Host" := by decide

theorem capFirst_connection : capFirst "connection" = "Connection" := by decide

theorem capFirst_content : capFirst "content-length" = "Content-length" := by decide

theorem capFirst_transfer : capFirst "transfer-encoding" = "Transfer-encoding" := by decide

theorem capFirst_expect : capFirst "expect" = "Expect" := by decide

/-- C4 counterexample: an inbound header spelled HOST — a capitalization of
host — survives the cleanup and is still present in the outbound headers,
so the removal is not case-insensitive over every capitalization. -/
theorem outboundHeaders_upper_host_kept :
    outboundHeaders exHeaders "us-t" "HOST" = some "x" := by decide

/-- C4 amended: the outbound-header construction removes the five
connection-management names only in their all-lowercase and
first-letter-capitalized spellings, and only when the inbound value is
truthy; it sets the lowercase authorization key to the Bearer token
(replacing an exact-lowercase inbound authorization); and it passes every
other key — including any other capitalization of the removed names —
through unchanged. -/
theorem outboundHeaders_spec (incoming : HeadersMap) (sessionId : String) :
    (∀ n ∈ strippedHeaderNames, jsTruthy (incoming n) = true →
        outboundHeaders incoming sessionId n = none)
    ∧ outboundHeaders incoming sessionId "authorization" = some ("Bearer " ++ sessionId)
    ∧ (∀ k : String, k ∉ strippedHeaderNames → k ≠ "authorization" →
        outboundHeaders incoming sessionId k = incoming k) := by
  refine ⟨?_, by simp [outboundHeaders], ?_⟩
  · intro n hn ht
    fin_cases hn <;>
      (simp only [outboundHeaders]
       rw [if_neg (by decide), sanitizeHeaders_apply, if_pos (by rw [ht]; decide)])
  · intro k hk hk2
    simp only [outboundHeaders]
    rw [if_neg hk2, sanitizeHeaders_apply]
    have hany : (sanitizeNames.any fun n => k == n || k == capFirst n) = false := by
      simp only [sanitizeNames, List.any_cons, List.any_nil, capFirst_host, capFirst_connection,
        capFirst_content, capFirst_transfer, capFirst_expect, Bool.or_false]
      simp only [strippedHeaderNames, List.mem_cons, List.not_mem_nil, or_false, not_or] at hk
      obtain ⟨h1, h2, h3, h4, h5, h6, h7, h8, h9, h10⟩ := hk
      simp [h1, h2, h3, h4, h5, h6, h7, h8, h9, h10]
    rw [hany]
    simp

/-- C4 witness: the fully-uppercase HOST key passes through unchanged on
the concrete header map. -/
theorem outboundHeaders_spec_witness :
    outboundHeaders exHeaders "us-t" "HOST" = exHeaders "HOST" :=
  (outboundHeaders_spec exHeaders "us-t").2.2 "HOST" (by decide) (by decide)

theorem countP_filter_not_split (p : Account → Bool) (l : List Account) :
    l.countP p + (l.filter (fun a => !(p a))).length = l.length := by
  induction l with
  | nil => simp
  | cons a rest ih =>
    by_cases h : p a = true
    · rw [List.countP_cons_of_pos _ _ h, List.filter_cons_of_neg (by simp [h])]
      simp only [List.length_cons]
      omega
    · have h' : p a = false := by simpa using h
      rw [List.countP_cons_of_neg _ _ (by simp [h']), List.filter_cons_of_pos (by simp [h'])]
      simp only [List.length_cons]
      omega

theorem runScan_successCount (refresh : Account → RefreshResult) :
    ∀ (todo acc : List Account) (s f : Nat) (saved attempted : List String),
    (runScan refresh todo acc s f saved attempted).successCount
      = s + todo.countP (fun a => (refresh a).isOk) := by
  intro todo
  induction todo with
  | nil =>
    intro acc s f saved attempted
    simp [runScan]
  | cons a rest ih =>
    intro acc s f saved attempted
    cases hr : refresh a with
    | ok u =>
      simp only [runScan, hr]
      rw [ih]
      rw [List.countP_cons_of_pos _ _ (by simp [hr, RefreshResult.isOk])]
      omega
    | failed =>
      simp only [runScan, hr]
      rw [ih]
      rw [List.countP_cons_of_neg _ _ (by simp [hr, RefreshResult.isOk])]
    | threw =>
      simp only [runScan, hr]
      rw [ih]
      rw [List.countP_cons_of_neg _ _ (by simp [hr, RefreshResult.isOk])]

theorem runScan_attempted (refresh : Account → RefreshResult) :
    ∀ (todo acc : List Account) (s f : Nat) (saved attempted : List String),
    (runScan refresh todo acc s f saved attempted).attempted
      = attempted ++ todo.map (fun a => a.email) := by
  intro todo
  induction todo with
  | nil =>
    intro acc s f saved attempted
    simp [runScan]
  | cons a rest ih =>
    intro acc s f saved attempted
    cases hr : refresh a with
    | ok u =>
      simp only [runScan, hr]
      rw [ih]
      simp
    | failed =>
      simp only [runScan, hr]
      rw [ih]
      simp
    | threw =>
      simp only [runScan, hr]
      rw [ih]
      simp

theorem findByEmail_cons (x : Account) (rest : List Account) (e : String) :
    findByEmail (x :: rest) e = if x.email = e then some x else findByEmail rest e := by
  unfold findByEmail
  simp only [List.find?]
  by_cases h : x.email = e
  · simp [h]
  · simp [h]

theorem find?_replaceByEmail (l : List Account) (k : String) (u : Account) (e : String)
    (hu : u.email = k) (hk : ¬(k = e)) :
    findByEmail (replaceByEmail l k u) e = findByEmail l e := by
  induction l with
  | nil => rfl
  | cons a rest ih =>
    by_cases ha : a.email = k
    · simp only [replaceByEmail, if_pos ha]
      rw [findByEmail_cons, findByEmail_cons]
      rw [if_neg (by rw [hu]; exact hk), if_neg (by rw [ha]; exact hk)]
    · simp only [replaceByEmail, if_neg ha]
      rw [findByEmail_cons, findByEmail_cons]
      by_cases he : a.email = e
      · rw [if_pos he, if_pos he]
      · rw [if_neg he, if_neg he]
        exact ih

theorem email_unique (l : List Account) (hnd : (l.map (fun a => a.email)).Nodup)
    (a b : Account) (ha : a ∈ l) (hb : b ∈ l) (he : a.email = b.email) : a = b := by
  induction l with
  | nil => cases ha
  | cons c rest ih =>
    rw [List.map_cons, List.nodup_cons] at hnd
    rcases List.mem_cons.mp ha with ha1 | ha1 <;> rcases List.mem_cons.mp hb with hb1 | hb1
    · rw [ha1, hb1]
    · exfalso
      apply hnd.1
      rw [← ha1, he]
      exact List.mem_map_of_mem _ hb1
    · exfalso
      apply hnd.1
      rw [← hb1, ← he]
      exact List.mem_map_of_mem _ ha1
    · exact ih hnd.2 ha1 hb1

theorem findByEmail_of_mem (l : List Account) (hnd : (l.map (fun a => a.email)).Nodup)
    (a : Account) (ha : a ∈ l) : findByEmail l a.email = some a := by
  induction l with
  | nil => cases ha
  | cons c rest ih =>
    rw [List.map_cons, List.nodup_cons] at hnd
    by_cases hc : c.email = a.email
    · have hca : c = a := by
        rcases List.mem_cons.mp ha with h1 | h1
        · rw [h1]
        · exfalso
          apply hnd.1
          rw [hc]
          exact List.mem_map_of_mem _ h1
      rw [findByEmail_cons, if_pos hc, hca]
    · have ha1 : a ∈ rest := by
        rcases List.mem_cons.mp ha with h1 | h1
        · exact absurd (by rw [h1]) hc
        · exact h1
      rw [findByEmail_cons, if_neg hc]
      exact ih hnd.2 ha1

theorem runScan_find_preserved (refresh : Account → RefreshResult) (e : String) (a : Account) :
    ∀ (todo acc : List Account) (s f : Nat) (saved attempted : List String),
    (∀ b ∈ todo, ∀ u, refresh b = RefreshResult.ok u → u.email = b.email) →
    (∀ b ∈ todo, (refresh b).isOk = true → ¬(b.email = e)) →
    findByEmail acc e = some a →
    findByEmail (runScan refresh todo acc s f saved attempted).accounts e = some a := by
  intro todo
  induction todo with
  | nil =>
    intro acc s f saved attempted _ _ hacc
    simpa [runScan] using hacc
  | cons b rest ih =>
    intro acc s f saved attempted hpres hne hacc
    cases hr : refresh b with
    | ok u =>
      simp only [runScan, hr]
      apply ih _ _ _ _ _ (fun x hx => hpres x (List.mem_cons_of_mem _ hx))
        (fun x hx => hne x (List.mem_cons_of_mem _ hx))
      rw [find?_replaceByEmail _ _ _ _ (hpres b (List.mem_cons_self _ _) u hr)
        (hne b (List.mem_cons_self _ _) (by simp [hr, RefreshResult.isOk]))]
      exact hacc
    | failed =>
      simp only [runScan, hr]
      exact ih _ _ _ _ _ (fun x hx => hpres x (List.mem_cons_of_mem _ hx))
        (fun x hx => hne x (List.mem_cons_of_mem _ hx)) hacc
    | threw =>
      simp only [runScan, hr]
      exact ih _ _ _ _ _ (fun x hx => hpres x (List.mem_cons_of_mem _ hx))
        (fun x hx => hne x (List.mem_cons_of_mem _ hx)) hacc

/-- C1: for a refresh scan (the scheduled tick and the manual route
handlers all invoke this same function) on an initialized manager whose
threshold makes every stored account a candidate, if K of the N refresh
attempts fail (resolve null or throw) then the scan returns N - K, every
failed account's record — session token and expiry included — is still in
the store unchanged, and every account was attempted, so no failure
aborted the batch.  `refresh` is the token-manager oracle, assumed only to
keep the account's email on success. -/
theorem autoRefresh_partial_failures (isSessionIdExpiringSoon : Option Nat → Nat → Bool)
    (refresh : Account → RefreshResult) (accounts : List Account) (thresholdHours : Nat)
    (hall : ∀ a ∈ accounts, isSessionIdExpiringSoon a.sessionid_expires thresholdHours = true)
    (hnd : (accounts.map (fun a => a.email)).Nodup)
    (hpres : ∀ a : Account, ∀ u : Account, refresh a = RefreshResult.ok u → u.email = a.email) :
    (autoRefreshSessionIds true isSessionIdExpiringSoon refresh accounts thresholdHours).1
        = accounts.length - (accounts.filter (fun a => !(refresh a).isOk)).length
    ∧ (∀ a ∈ accounts, (refresh a).isOk = false →
        findByEmail (autoRefreshSessionIds true isSessionIdExpiringSoon refresh accounts
            thresholdHours).2.accounts a.email = some a)
    ∧ (autoRefreshSessionIds true isSessionIdExpiringSoon refresh accounts
          thresholdHours).2.attempted = accounts.map (fun a => a.email) := by
  have hfilter :
      accounts.filter (fun a => isSessionIdExpiringSoon a.sessionid_expires thresholdHours)
        = accounts := List.filter_eq_self.mpr hall
  by_cases hlen : accounts.length = 0
  · have hnil := List.length_eq_zero.mp hlen
    subst hnil
    refine ⟨rfl, ?_, rfl⟩
    intro a ha
    cases ha
  · have hrun : autoRefreshSessionIds true isSessionIdExpiringSoon refresh accounts
        thresholdHours
        = ((runScan refresh accounts accounts 0 0 [] []).successCount,
           runScan refresh accounts accounts 0 0 [] []) := by
      simp only [autoRefreshSessionIds, Bool.not_true]
      rw [hfilter, if_neg (by decide), if_neg hlen]
    rw [hrun]
    refine ⟨?_, ?_, ?_⟩
    · rw [runScan_successCount]
      have hsplit := countP_filter_not_split (fun a => (refresh a).isOk) accounts
      simp only [Nat.zero_add]
      omega
    · intro a ha hfail
      apply runScan_find_preserved refresh a.email a accounts accounts 0 0 [] []
        (fun b _ => hpres b)
      · intro b hb hok hc
        have hba : b = a := email_unique accounts hnd b a hb ha hc
        rw [hba, hfail] at hok
        cases hok
      · exact findByEmail_of_mem accounts hnd a ha
    · rw [runScan_attempted]
      rfl

/-- C1 witness: two candidate accounts, accA's refresh resolves null and
accB's succeeds; accA's record is afterwards still in the store unchanged. -/
theorem autoRefresh_partial_failures_witness :
    findByEmail (autoRefreshSessionIds true (fun _ _ => true) exRefresh exStore
        24).2.accounts accA.email = some accA :=
  (autoRefresh_partial_failures (fun _ _ => true) exRefresh exStore 24
      (by intro a _; rfl) (by decide)
      (by
        intro a u h
        unfold exRefresh at h
        split at h
        · injection h with h2
          rw [← h2]
        · exact RefreshResult.noConfusion h)).2.1 accA (by decide) (by decide)

theorem runBatch_counts (login : String → String → LoginResult) :
    ∀ (lines : List String) (accounts : List Account) (s : Nat)
      (failed : List (String × String)),
    (runBatch login lines accounts s failed).1
        + (runBatch login lines accounts s failed).2.1.length
      = s + failed.length + lines.countP (fun l => (parseAccountLine l).isSome) := by
  intro lines
  induction lines with
  | nil =>
    intro accounts s failed
    simp [runBatch]
  | cons line rest ih =>
    intro accounts s failed
    cases hp : parseAccountLine line with
    | none =>
      simp only [runBatch, hp]
      rw [ih, List.countP_cons_of_neg _ _ (by simp [hp])]
    | some ep =>
      obtain ⟨email, password⟩ := ep
      simp only [runBatch, hp]
      cases hf : accounts.find? (fun a => decide (a.email = email)) with
      | some _ =>
        rw [ih, List.countP_cons_of_pos _ _ (by simp [hp]), List.length_append]
        simp only [List.length_cons, List.length_nil]
        omega
      | none =>
        by_cases hs : (addAccount login accounts email password).success = true
        · rw [if_pos hs, ih, List.countP_cons_of_pos _ _ (by simp [hp])]
          omega
        · rw [if_neg hs, ih, List.countP_cons_of_pos _ _ (by simp [hp]), List.length_append]
          simp only [List.length_cons, List.length_nil]
          omega

/-- C9 counterexample: a submitted item with no colon (so no password)
counts toward the event's total but is reported neither as a success nor
in the failed list — it is silently skipped, so not every submitted item
is individually reported. -/
theorem setAccounts_malformed_unreported :
    setAccountsHandler (fun _ _ => LoginResult.failed) [] "nocolon"
      = some ⟨1, 0, [], []⟩ := by decide

/-- C9 amended: the completion event reports the number of submitted lines
as total, and every well-formed item (non-empty email and password around
a colon) contributes exactly one report — a success count increment or a
failed entry with a reason — with a failing or pre-existing item never
aborting the remaining ones; items without both an email and a password
are counted in total but receive no individual report. -/
theorem setAccounts_reports (login : String → String → LoginResult)
    (accounts : List Account) (input : String) (result : BatchResult)
    (h : setAccountsHandler login accounts input = some result) :
    result.total = (splitAccountLines input).length
    ∧ result.successCount + result.failed.length
        = (splitAccountLines input).countP (fun l => (parseAccountLine l).isSome) := by
  unfold setAccountsHandler at h
  by_cases hin : input = ""
  · rw [if_pos hin] at h
    cases h
  · rw [if_neg hin] at h
    injection h with h2
    subst h2
    refine ⟨rfl, ?_⟩
    have hc := runBatch_counts login (splitAccountLines input) accounts 0 []
    simpa using hc

/-- C9 witness: one well-formed and one malformed line at a concrete call. -/
theorem setAccounts_reports_witness :
    (⟨2, 1, [], [⟨"good", "pw", "s", none, none, none⟩]⟩ : BatchResult).successCount
        + (⟨2, 1, [], [⟨"good", "pw", "s", none, none, none⟩]⟩ : BatchResult).failed.length
      = (splitAccountLines "good:pw\nbad").countP (fun l => (parseAccountLine l).isSome) :=
  (setAccounts_reports (fun _ _ => LoginResult.ok "s" none) [] "good:pw\nbad"
      ⟨2, 1, [], [⟨"good", "pw", "s", none, none, none⟩]⟩ (by decide)).2
